import Mathlib

/-!
Verification of the Tilt hydrometer scanner core (`tilt.py`).

Shallow embedding conventions:
* a Python `bytes` value is a `List ℕ` whose elements are byte values;
* Python floats are modelled as exact rationals (`ℚ`): the numeric
  transforms in the source (`(t - 32) * 5.0 / 9.0`, `x / 1000.0`) are
  carried out exactly rather than in IEEE doubles;
* the mutable module-level dictionaries `discovered_devices` and
  `history`, and the CSV file, are gathered into an explicit
  `ScannerState` record threaded through the discover callback;
* file I/O that can fail is abstracted by a write function returning
  `Except` (the `except: pass` handler in the source catches failures).
-/

/-- Result record of `parse_tilt_advertisement` (the dict built at
`tilt.py` lines 184-192).  Field names follow the source keys. -/
structure DecodedReading where
  color : String
  temperature : ℕ
  temperature_c : ℚ
  gravity : ℚ
  battery_weeks : Option ℕ
  tx_raw : ℕ
  tx_dbm : ℤ
deriving DecidableEq, Repr

/-- Big-endian `int.from_bytes(_, byteorder='big')` on a byte list. -/
def int_from_bytes_be (l : List ℕ) : ℕ :=
  l.foldl (fun a b => 256 * a + b) 0

/-- Uppercase hexadecimal digit for a value below 16
(`binascii.hexlify(...).upper()` digit alphabet). -/
def hexDigitUpper (n : ℕ) : Char :=
  if n < 10 then Char.ofNat (48 + n) else Char.ofNat (55 + n)

/-- Lowercase hexadecimal digit (`bytes.hex()` digit alphabet). -/
def hexDigitLower (n : ℕ) : Char :=
  if n < 10 then Char.ofNat (48 + n) else Char.ofNat (87 + n)

/-- `binascii.hexlify(bs).decode('utf-8').upper()`: two uppercase hex
digits per byte. -/
def hexlify_upper (bs : List ℕ) : String :=
  String.mk (bs.foldr (fun b acc => hexDigitUpper (b / 16 % 16) :: hexDigitUpper (b % 16) :: acc) [])

/-- `bs.hex()`: two lowercase hex digits per byte. -/
def hexlify_lower (bs : List ℕ) : String :=
  String.mk (bs.foldr (fun b acc => hexDigitLower (b / 16 % 16) :: hexDigitLower (b % 16) :: acc) [])

/-- The fixed `color_map` dict of `tilt.py` lines 165-174: the eight
known Tilt identity tokens, rendered as uppercase hex, with their
color names. -/
def color_map : List (String × String) :=
  [("A495BB10C5B14B44B5121370F02D74DE", "Red"),
   ("A495BB20C5B14B44B5121370F02D74DE", "Green"),
   ("A495BB30C5B14B44B5121370F02D74DE", "Black"),
   ("A495BB40C5B14B44B5121370F02D74DE", "Purple"),
   ("A495BB50C5B14B44B5121370F02D74DE", "Orange"),
   ("A495BB60C5B14B44B5121370F02D74DE", "Blue"),
   ("A495BB70C5B14B44B5121370F02D74DE", "Yellow"),
   ("A495BB80C5B14B44B5121370F02D74DE", "Pink")]

/-- `parse_tilt_advertisement` (`tilt.py` lines 129-192).  A Python
slice `data_bytes[a:b]` is `(bs.drop a).take (b - a)`; the accesses are
guarded by the initial length check, so `bs.getD 24 0` agrees with
`data_bytes[24]`.  `struct.unpack('b', ...)` is the two's-complement
signed reading of the byte. -/
def parse_tilt_advertisement (data_bytes : List ℕ) : Option DecodedReading :=
  if data_bytes.length < 25 then none
  else if data_bytes.take 2 ≠ [0x4C, 0x00] ∨ (data_bytes.drop 2).take 2 ≠ [0x02, 0x15] then none
  else
    let uuid_bytes := (data_bytes.drop 4).take 16
    let major := (data_bytes.drop 20).take 2
    let minor := (data_bytes.drop 22).take 2
    let tx_byte := data_bytes.getD 24 0
    let temperature := int_from_bytes_be major
    let temperature_c : ℚ := ((temperature : ℚ) - 32) * 5 / 9
    let gravity : ℚ := (int_from_bytes_be minor : ℚ) / 1000
    let uuid_str := hexlify_upper uuid_bytes
    let color := (color_map.lookup uuid_str).getD "Unknown"
    let tx_raw := tx_byte
    let tx_dbm : ℤ := if tx_byte < 128 then (tx_byte : ℤ) else (tx_byte : ℤ) - 256
    let battery_weeks : Option ℕ := if tx_raw ≤ 152 then some tx_raw else none
    let battery_weeks : Option ℕ := if tx_raw = 0xC5 then none else battery_weeks
    some { color := color, temperature := temperature, temperature_c := temperature_c,
           gravity := gravity, battery_weeks := battery_weeks,
           tx_raw := tx_raw, tx_dbm := tx_dbm }

/-- The example advertisement from the documentation:
`4C 00 02 15 A4 95 BB 10 C5 B1 4B 44 B5 12 13 70 F0 2D 74 DE 00 46 03 E8 5A`. -/
def exampleBytes : List ℕ :=
  [0x4C, 0x00, 0x02, 0x15,
   0xA4, 0x95, 0xBB, 0x10, 0xC5, 0xB1, 0x4B, 0x44,
   0xB5, 0x12, 0x13, 0x70, 0xF0, 0x2D, 0x74, 0xDE,
   0x00, 0x46, 0x03, 0xE8, 0x5A]

/-- One entry of the `history` deque (`tilt.py` lines 54-58):
`{'ts': int(time.time()*1000), 'temp_c': ..., 'gravity': ...}`. -/
structure HistorySample where
  ts : ℕ
  temp_c : ℚ
  gravity : ℚ
deriving DecidableEq, Repr

/-- `collections.deque(maxlen := m).append`: appends on the right and, when
the deque is already at capacity, discards the leftmost element. -/
def dequeAppend {α : Type} (maxlen : ℕ) (dq : List α) (x : α) : List α :=
  if dq.length < maxlen then dq ++ [x] else dq.tail ++ [x]

/-- `_append_history` (`tilt.py` lines 48-58) acting on the `history`
map: get-or-create the per-device deque (created with `maxlen=3600`)
and append one sample. -/
def _append_history (hist : String → Option (List HistorySample)) (pid : String)
    (temp_c gravity : ℚ) (nowMillis : ℕ) : String → Option (List HistorySample) :=
  let dq := (hist pid).getD []
  let dq2 := dequeAppend 3600 dq { ts := nowMillis, temp_c := temp_c, gravity := gravity }
  fun p => if p = pid then some dq2 else hist p

/-- One entry of `discovered_devices` (`tilt.py` lines 257-268).  Field
names follow the source keys. -/
structure DeviceRecord where
  color : String
  temperature : ℕ
  temperature_c : ℚ
  gravity : ℚ
  rssi : Option ℤ
  battery_weeks : Option ℕ
  tx_raw : ℕ
  tx_dbm : ℤ
  raw_hex : String
  last_seen : String
deriving DecidableEq, Repr

/-- Wall-clock instant, standing in for `datetime.now()`. -/
structure DateTime where
  year : ℕ
  month : ℕ
  day : ℕ
  hour : ℕ
  minute : ℕ
  second : ℕ
deriving DecidableEq, Repr

/-- Zero-padding to two digits, as the strftime numeric directives do. -/
def pad2 (n : ℕ) : String :=
  if n < 10 then "0" ++ toString n else toString n

/-- Zero-padding to four digits (years below 1000 do not occur). -/
def pad4 (n : ℕ) : String :=
  if n < 10 then "000" ++ toString n
  else if n < 100 then "00" ++ toString n
  else if n < 1000 then "0" ++ toString n
  else toString n

/-- `strftime("%Y-%m-%d %H:%M:%S")`, the `last_seen` format. -/
def strftime_Ymd_HMS (dt : DateTime) : String :=
  pad4 dt.year ++ "-" ++ pad2 dt.month ++ "-" ++ pad2 dt.day ++ " " ++
    pad2 dt.hour ++ ":" ++ pad2 dt.minute ++ ":" ++ pad2 dt.second

/-- `strftime("%m/%d/%Y %H:%M:%S")`, the CSV timepoint format. -/
def strftime_mdY_HMS (dt : DateTime) : String :=
  pad2 dt.month ++ "/" ++ pad2 dt.day ++ "/" ++ pad4 dt.year ++ " " ++
    pad2 dt.hour ++ ":" ++ pad2 dt.minute ++ ":" ++ pad2 dt.second

/-- The mutable module-level state of `tilt.py`: the
`discovered_devices` dict, the `history` dict of deques, and the
contents of `mead.csv` (`none` while the file does not exist). -/
structure ScannerState where
  discovered_devices : String → Option DeviceRecord
  history : String → Option (List HistorySample)
  csv : Option String

/-- The dict stored into `discovered_devices[pid]` at `tilt.py`
lines 257-268; every field comes from the current advertisement. -/
def mkRecord (info : DecodedReading) (rssi_dbm : Option ℤ) (data_bytes : List ℕ)
    (now : DateTime) : DeviceRecord :=
  { color := info.color, temperature := info.temperature,
    temperature_c := info.temperature_c, gravity := info.gravity,
    rssi := rssi_dbm, battery_weeks := info.battery_weeks,
    tx_raw := info.tx_raw, tx_dbm := info.tx_dbm,
    raw_hex := hexlify_lower data_bytes,
    last_seen := strftime_Ymd_HMS now }

/-- The header line written by `ensure_csv_header`. -/
def CSV_HEADER : String := "Timepoint,SG,Temp (°C)\n"

/-- `ensure_csv_header` (`tilt.py` lines 284-292) as a transformer of the
file contents: creates the file holding exactly the header when absent,
leaves it untouched otherwise. -/
def ensure_csv_header (file : Option String) : String :=
  match file with
  | none => CSV_HEADER
  | some content => content

/-- Round to the nearest integer, ties to even — the rounding used by
Python fixed-point float formatting, carried out on exact rationals. -/
def roundHalfEven (q : ℚ) : ℤ :=
  let f : ℤ := ⌊q⌋
  let r : ℚ := q - f
  if r < 1 / 2 then f
  else if 1 / 2 < r then f + 1
  else if 2 ∣ f then f else f + 1

/-- Left-pad a digit string with zeros up to width `k`. -/
def padLeftZeros (k : ℕ) (s : String) : String :=
  String.mk (List.replicate (k - s.length) '0') ++ s

/-- Models the Python fixed-point format `f"{x:.kf}"` on an exact
rational value: `k` digits after the decimal point. -/
def fmtFixed (k : ℕ) (q : ℚ) : String :=
  let n : ℤ := roundHalfEven (q * 10 ^ k)
  let sign := if n < 0 then "-" else ""
  let m := n.natAbs
  sign ++ toString (m / 10 ^ k) ++ "." ++ padLeftZeros k (toString (m % 10 ^ k))

/-- The line written by `append_to_mead_csv` (`tilt.py` line 304):
`f"{timepoint_dt.strftime('%m/%d/%Y %H:%M:%S')},{gravity:.3f},{temp_c:.1f}\n"`. -/
def csvLine (dt : DateTime) (gravity temp_c : ℚ) : String :=
  strftime_mdY_HMS dt ++ "," ++ fmtFixed 3 gravity ++ "," ++ fmtFixed 1 temp_c ++ "\n"

/-- `append_to_mead_csv` (`tilt.py` lines 294-327) as a transformer of
the file contents: ensure the header exists, check whether the file is
nonempty and its last byte is not a newline (in which case a lone
newline is emitted first), then append the formatted line. -/
def append_to_mead_csv (file : Option String) (timepoint_dt : DateTime)
    (gravity temp_c : ℚ) : String :=
  let content := ensure_csv_header file
  let need_newline : Bool :=
    match content.toList.getLast? with
    | none => false
    | some c => c != '\n'
  content ++ (if need_newline then "\n" else "") ++ csvLine timepoint_dt gravity temp_c

/-- `centralManager_didDiscoverPeripheral_advertisementData_RSSI_`
(`tilt.py` lines 222-278) on the explicit state.  `manufacturer_data`
is the optional `kCBAdvDataManufacturerData` value (the source's
falsy test also drops an empty byte string); `rssi` is the delivered
signal strength; `now`/`nowMillis` stand for the wall clock reads.
`csvWrite` abstracts the filesystem effect of the
`append_to_mead_csv` call inside the `try`/`except` at lines 274-278:
`.ok f` is a completed write leaving the file as `f`, `.error f` is an
I/O failure (caught and swallowed by the handler) leaving the file as
`f`.  The pure, always-succeeding instance is `csvWriteReal`. -/
def centralManager_didDiscoverPeripheral_advertisementData_RSSI_
    (st : ScannerState) (pid : String) (manufacturer_data : Option (List ℕ)) (rssi : ℤ)
    (now : DateTime) (nowMillis : ℕ)
    (csvWrite : Option String → Except (Option String) (Option String)) : ScannerState :=
  match manufacturer_data with
  | none => st
  | some data_bytes =>
    if data_bytes.isEmpty then st
    else
      let tilt_info := parse_tilt_advertisement data_bytes
      let rssi_dbm : Option ℤ := if rssi = 127 then none else some rssi
      match tilt_info with
      | none => st
      | some info =>
        let record := mkRecord info rssi_dbm data_bytes now
        { discovered_devices := fun p => if p = pid then some record else st.discovered_devices p,
          history := _append_history st.history pid info.temperature_c info.gravity nowMillis,
          csv :=
            match csvWrite st.csv with
            | .ok f => f
            | .error f => f }

/-- The actual CSV write performed at `tilt.py` line 276, when no I/O
error occurs. -/
def csvWriteReal (now : DateTime) (gravity temp_c : ℚ) :
    Option String → Except (Option String) (Option String) :=
  fun file => .ok (some (append_to_mead_csv file now gravity temp_c))

/-- The reading assembled by `parse_tilt_advertisement` on an accepted
payload, with every slice written out explicitly. -/
def parsedReading (bs : List ℕ) : DecodedReading :=
  { color := (color_map.lookup (hexlify_upper ((bs.drop 4).take 16))).getD "Unknown",
    temperature := int_from_bytes_be ((bs.drop 20).take 2),
    temperature_c := ((int_from_bytes_be ((bs.drop 20).take 2) : ℚ) - 32) * 5 / 9,
    gravity := (int_from_bytes_be ((bs.drop 22).take 2) : ℚ) / 1000,
    battery_weeks := if bs.getD 24 0 = 0xC5 then none
      else if bs.getD 24 0 ≤ 152 then some (bs.getD 24 0) else none,
    tx_raw := bs.getD 24 0,
    tx_dbm := if bs.getD 24 0 < 128 then (bs.getD 24 0 : ℤ) else (bs.getD 24 0 : ℤ) - 256 }

theorem parse_tilt_advertisement_eq (bs : List ℕ) :
    parse_tilt_advertisement bs =
      if bs.length < 25 ∨ bs.take 2 ≠ [0x4C, 0x00] ∨ (bs.drop 2).take 2 ≠ [0x02, 0x15] then none
      else some (parsedReading bs) := by
  unfold parse_tilt_advertisement parsedReading
  split_ifs <;> simp_all
  omega

theorem parse_some_elim (bs : List ℕ) (info : DecodedReading)
    (h : parse_tilt_advertisement bs = some info) :
    25 ≤ bs.length ∧ bs.take 2 = [0x4C, 0x00] ∧ (bs.drop 2).take 2 = [0x02, 0x15] ∧
      info = parsedReading bs := by
  rw [parse_tilt_advertisement_eq] at h
  split_ifs at h with hr
  push_neg at hr
  obtain ⟨h1, h2, h3⟩ := hr
  exact ⟨by omega, h2, h3, (Option.some.inj h).symm⟩

theorem take_two_getD (l : List ℕ) (h : 2 ≤ l.length) :
    l.take 2 = [l.getD 0 0, l.getD 1 0] := by
  match l, h with
  | a :: b :: t, _ => simp

theorem getD_drop (l : List ℕ) (k i : ℕ) : (l.drop k).getD i 0 = l.getD (k + i) 0 := by
  simp [List.getD_eq_getElem?_getD, List.getElem?_drop]

theorem int_from_bytes_be_pair (a b : ℕ) : int_from_bytes_be [a, b] = 256 * a + b := by
  simp [int_from_bytes_be]

theorem parse_exampleBytes :
    parse_tilt_advertisement exampleBytes =
      some { color := "Red", temperature := 70, temperature_c := 190 / 9,
             gravity := 1, battery_weeks := some 90, tx_raw := 90, tx_dbm := 90 } := by
  norm_num [parse_tilt_advertisement, exampleBytes, int_from_bytes_be, hexlify_upper,
    hexDigitUpper, color_map, List.lookup, DecodedReading.mk.injEq]

theorem parse_prefixed_accepts (u : List ℕ) (hi lo g1 g2 tx : ℕ) (hu : u.length = 16) :
    parse_tilt_advertisement ([0x4C, 0x00, 0x02, 0x15] ++ u ++ [hi, lo, g1, g2, tx])
      = some (parsedReading ([0x4C, 0x00, 0x02, 0x15] ++ u ++ [hi, lo, g1, g2, tx])) := by
  rw [parse_tilt_advertisement_eq, if_neg (by simp [hu])]

/-- C1: `parse_tilt_advertisement` returns `none` exactly when the input
has fewer than 25 bytes, or bytes 0..2 differ from `4C 00`, or bytes
2..4 differ from `02 15`; every input of length at least 25 carrying
that exact 4-byte prefix yields a reading, and no rejected input
produces one. -/
theorem decode_rejects_iff (bs : List ℕ) :
    parse_tilt_advertisement bs = none ↔
      bs.length < 25 ∨ bs.take 2 ≠ [0x4C, 0x00] ∨ (bs.drop 2).take 2 ≠ [0x02, 0x15] := by
  rw [parse_tilt_advertisement_eq]
  split_ifs with h <;> simp [h]

/-- C2: on every accepted payload, `temperature` is the big-endian
unsigned 16-bit value of bytes 20..22 (acceptance imposes no bound on
it: any major/minor/tx bytes after a well-formed prefix are accepted),
`temperature_c = (temperature - 32) * 5/9`, and `gravity` is the
big-endian unsigned 16-bit value of bytes 22..24 divided by 1000; the
documented example decodes to Red, 70 °F, ≈21.1 °C, gravity 1.000 and
90 battery weeks. -/
theorem decode_numeric_fields (bs : List ℕ) (info : DecodedReading)
    (h : parse_tilt_advertisement bs = some info) :
    info.temperature = 256 * bs.getD 20 0 + bs.getD 21 0
  ∧ info.temperature_c = ((info.temperature : ℚ) - 32) * 5 / 9
  ∧ info.gravity = ((256 * bs.getD 22 0 + bs.getD 23 0 : ℕ) : ℚ) / 1000
  ∧ (∀ (u : List ℕ) (hi lo g1 g2 tx : ℕ), u.length = 16 →
      ∃ r, parse_tilt_advertisement ([0x4C, 0x00, 0x02, 0x15] ++ u ++ [hi, lo, g1, g2, tx])
          = some r ∧ r.temperature = 256 * hi + lo)
  ∧ parse_tilt_advertisement exampleBytes
      = some { color := "Red", temperature := 70, temperature_c := 190 / 9,
               gravity := 1, battery_weeks := some 90, tx_raw := 90, tx_dbm := 90 }
  ∧ |(190 : ℚ) / 9 - 211 / 10| < 1 / 20 := by
  obtain ⟨hlen, -, -, rfl⟩ := parse_some_elim bs info h
  have e20 : (bs.drop 20).take 2 = [bs.getD 20 0, bs.getD 21 0] := by
    rw [take_two_getD (bs.drop 20) (by rw [List.length_drop]; omega)]
    simp [getD_drop]
  have e22 : (bs.drop 22).take 2 = [bs.getD 22 0, bs.getD 23 0] := by
    rw [take_two_getD (bs.drop 22) (by rw [List.length_drop]; omega)]
    simp [getD_drop]
  refine ⟨?_, rfl, ?_, ?_, parse_exampleBytes, by rw [abs_sub_lt_iff]; norm_num⟩
  · show int_from_bytes_be ((bs.drop 20).take 2) = _
    rw [e20, int_from_bytes_be_pair]
  · show (int_from_bytes_be ((bs.drop 22).take 2) : ℚ) / 1000 = _
    rw [e22, int_from_bytes_be_pair]
  · intro u hi lo g1 g2 tx hu
    have hd20 : (([0x4C, 0x00, 0x02, 0x15] : List ℕ) ++ u ++ [hi, lo, g1, g2, tx]).drop 20
        = [hi, lo, g1, g2, tx] := by
      rw [show (20 : ℕ) = (([0x4C, 0x00, 0x02, 0x15] : List ℕ) ++ u).length by simp [hu]]
      exact List.drop_left _ _
    refine ⟨_, parse_prefixed_accepts u hi lo g1 g2 tx hu, ?_⟩
    show int_from_bytes_be (((([0x4C, 0x00, 0x02, 0x15] : List ℕ) ++ u
        ++ [hi, lo, g1, g2, tx]).drop 20).take 2) = _
    rw [hd20]
    exact int_from_bytes_be_pair hi lo

/-- C3: on every accepted payload the 16 bytes at 4..20, rendered as
uppercase hexadecimal, are resolved against the fixed 8-entry
`color_map`: a matching token yields exactly its color name, any other
token still decodes successfully with color "Unknown". -/
theorem decode_color_resolution (bs : List ℕ) (info : DecodedReading)
    (h : parse_tilt_advertisement bs = some info) :
    color_map.length = 8
  ∧ color_map.map Prod.snd
      = ["Red", "Green", "Black", "Purple", "Orange", "Blue", "Yellow", "Pink"]
  ∧ (∀ kv ∈ color_map, hexlify_upper ((bs.drop 4).take 16) = kv.1 → info.color = kv.2)
  ∧ ((∀ kv ∈ color_map, hexlify_upper ((bs.drop 4).take 16) ≠ kv.1) → info.color = "Unknown")
  ∧ (∀ (u : List ℕ) (hi lo g1 g2 tx : ℕ), u.length = 16 →
      (parse_tilt_advertisement ([0x4C, 0x00, 0x02, 0x15] ++ u
        ++ [hi, lo, g1, g2, tx])).isSome) := by
  obtain ⟨-, -, -, rfl⟩ := parse_some_elim bs info h
  have hc : (parsedReading bs).color
      = (color_map.lookup (hexlify_upper ((bs.drop 4).take 16))).getD "Unknown" := rfl
  refine ⟨rfl, rfl, ?_, ?_, ?_⟩
  · intro kv hkv he
    rw [hc, he]
    simp only [color_map] at hkv
    fin_cases hkv <;> rfl
  · intro hne
    rw [hc]
    have h1 := hne ("A495BB10C5B14B44B5121370F02D74DE", "Red") (by simp [color_map])
    have h2 := hne ("A495BB20C5B14B44B5121370F02D74DE", "Green") (by simp [color_map])
    have h3 := hne ("A495BB30C5B14B44B5121370F02D74DE", "Black") (by simp [color_map])
    have h4 := hne ("A495BB40C5B14B44B5121370F02D74DE", "Purple") (by simp [color_map])
    have h5 := hne ("A495BB50C5B14B44B5121370F02D74DE", "Orange") (by simp [color_map])
    have h6 := hne ("A495BB60C5B14B44B5121370F02D74DE", "Blue") (by simp [color_map])
    have h7 := hne ("A495BB70C5B14B44B5121370F02D74DE", "Yellow") (by simp [color_map])
    have h8 := hne ("A495BB80C5B14B44B5121370F02D74DE", "Pink") (by simp [color_map])
    simp [color_map, List.lookup, beq_eq_false_iff_ne.mpr h1, beq_eq_false_iff_ne.mpr h2,
      beq_eq_false_iff_ne.mpr h3, beq_eq_false_iff_ne.mpr h4, beq_eq_false_iff_ne.mpr h5,
      beq_eq_false_iff_ne.mpr h6, beq_eq_false_iff_ne.mpr h7, beq_eq_false_iff_ne.mpr h8]
  · intro u hi lo g1 g2 tx hu
    rw [parse_prefixed_accepts u hi lo g1 g2 tx hu]
    rfl

/-- C4: on every accepted payload, `battery_weeks` equals `tx_raw`
exactly when `tx_raw` lies in 0..152 and differs from `0xC5`, and is
absent otherwise; `tx_raw = 0xC5` yields absent unconditionally. -/
theorem battery_weeks_rule (bs : List ℕ) (info : DecodedReading)
    (h : parse_tilt_advertisement bs = some info) :
    (info.battery_weeks
        = if info.tx_raw ≤ 152 ∧ info.tx_raw ≠ 0xC5 then some info.tx_raw else none)
  ∧ (info.tx_raw = 0xC5 → info.battery_weeks = none)
  ∧ (152 < info.tx_raw → info.battery_weeks = none) := by
  obtain ⟨-, -, -, rfl⟩ := parse_some_elim bs info h
  have ht : (parsedReading bs).tx_raw = bs.getD 24 0 := rfl
  have hb : (parsedReading bs).battery_weeks
      = (if bs.getD 24 0 = 0xC5 then none
         else if bs.getD 24 0 ≤ 152 then some (bs.getD 24 0) else none) := rfl
  rw [ht, hb]
  refine ⟨?_, ?_, ?_⟩ <;> split_ifs <;> simp_all
  omega

/-- C10: decoding depends only on the first 25 bytes: two inputs of
length at least 25 agreeing on bytes 0..24 decode identically. -/
theorem decode_depends_only_on_first_25 (b1 b2 : List ℕ)
    (h1 : 25 ≤ b1.length) (h2 : 25 ≤ b2.length) (hagree : b1.take 25 = b2.take 25) :
    parse_tilt_advertisement b1 = parse_tilt_advertisement b2 := by
  have e0 : b1.take 2 = b2.take 2 := by
    have h := congrArg (List.take 2) hagree
    simpa [List.take_take] using h
  have e2 : (b1.drop 2).take 2 = (b2.drop 2).take 2 := by
    have h := congrArg (fun l => (l.drop 2).take 2) hagree
    simpa [List.drop_take, List.take_take] using h
  have e4 : (b1.drop 4).take 16 = (b2.drop 4).take 16 := by
    have h := congrArg (fun l => (l.drop 4).take 16) hagree
    simpa [List.drop_take, List.take_take] using h
  have e20 : (b1.drop 20).take 2 = (b2.drop 20).take 2 := by
    have h := congrArg (fun l => (l.drop 20).take 2) hagree
    simpa [List.drop_take, List.take_take] using h
  have e22 : (b1.drop 22).take 2 = (b2.drop 22).take 2 := by
    have h := congrArg (fun l => (l.drop 22).take 2) hagree
    simpa [List.drop_take, List.take_take] using h
  have e24 : b1.getD 24 0 = b2.getD 24 0 := by
    have h := congrArg (fun l => l.getD 24 0) hagree
    simpa [List.getD_eq_getElem?_getD, List.getElem?_take] using h
  have hl1 : ¬ b1.length < 25 := by omega
  have hl2 : ¬ b2.length < 25 := by omega
  rw [parse_tilt_advertisement_eq, parse_tilt_advertisement_eq]
  simp only [parsedReading, e0, e2, e4, e20, e22, e24, hl1, hl2, false_or]

theorem decode_numeric_fields_witness :
    ∃ info, parse_tilt_advertisement exampleBytes = some info
      ∧ info.temperature = 256 * exampleBytes.getD 20 0 + exampleBytes.getD 21 0 :=
  ⟨_, parse_exampleBytes, (decode_numeric_fields exampleBytes _ parse_exampleBytes).1⟩

theorem decode_color_resolution_witness :
    ∃ info, parse_tilt_advertisement exampleBytes = some info ∧ info.color = "Red" := by
  refine ⟨_, parse_exampleBytes, ?_⟩
  exact (decode_color_resolution exampleBytes _ parse_exampleBytes).2.2.1
    ("A495BB10C5B14B44B5121370F02D74DE", "Red") (by simp [color_map]) (by decide)

theorem battery_weeks_rule_witness :
    ∃ info, parse_tilt_advertisement exampleBytes = some info
      ∧ info.battery_weeks = some 90 := by
  refine ⟨_, parse_exampleBytes, ?_⟩
  rw [(battery_weeks_rule exampleBytes _ parse_exampleBytes).1]
  decide

theorem decode_first25_witness :
    parse_tilt_advertisement (exampleBytes ++ [1, 2, 3])
      = parse_tilt_advertisement (exampleBytes ++ [255]) :=
  decode_depends_only_on_first_25 _ _ (by simp [exampleBytes]) (by simp [exampleBytes])
    (by decide)

theorem foldl_dequeAppend {α : Type} (n : ℕ) (hn : 0 < n) (l : List α) :
    ∀ acc : List α, acc.length ≤ n →
      l.foldl (dequeAppend n) acc = (acc ++ l).drop (acc.length + l.length - n) := by
  induction l with
  | nil =>
    intro acc h
    simp [Nat.sub_eq_zero_of_le h]
  | cons x l' ih =>
    intro acc h
    rw [List.foldl_cons]
    by_cases hlt : acc.length < n
    · rw [show dequeAppend n acc x = acc ++ [x] from by simp [dequeAppend, hlt]]
      rw [ih (acc ++ [x]) (by simp only [List.length_append, List.length_cons, List.length_nil]; omega)]
      rw [List.append_assoc]
      have harith : (acc ++ [x]).length + l'.length = acc.length + (x :: l').length := by
        simp; omega
      rw [harith]
      simp
    · have hacc : acc.length = n := by omega
      have hne : acc ≠ [] := by
        intro he
        rw [he] at hacc
        simp at hacc
        omega
      obtain ⟨a, t, rfl⟩ := List.exists_cons_of_ne_nil hne
      have htl : t.length + 1 = n := by simpa using hacc
      have hdq : dequeAppend n (a :: t) x = t ++ [x] := by
        simp only [dequeAppend, List.length_cons]
        rw [if_neg (by omega)]
        rfl
      rw [hdq]
      rw [ih (t ++ [x]) (by simp; omega)]
      have h1 : (t ++ [x]).length + l'.length - n = l'.length := by
        simp; omega
      have h2 : (a :: t).length + (x :: l').length - n = l'.length + 1 := by
        simp; omega
      rw [h1, h2]
      simp [List.append_assoc]

/-- C5: folding the history append (a `maxlen = 3600` deque append,
exactly what `_append_history` performs on the addressed device's
buffer — last conjunct) over any sample sequence keeps at most 3600
samples, leaves exactly the suffix of the most recent 3600 in
oldest-first order (so appending more than 3600 leaves exactly 3600),
and preserves non-decreasing timestamps of the single writer's append
order. -/
theorem history_capacity_and_order (l : List HistorySample)
    (hmono : List.Chain' (fun a b => a.ts ≤ b.ts) l) :
    (l.foldl (dequeAppend 3600) []).length ≤ 3600
  ∧ l.foldl (dequeAppend 3600) [] = l.drop (l.length - 3600)
  ∧ (3600 < l.length → (l.foldl (dequeAppend 3600) []).length = 3600)
  ∧ List.Chain' (fun a b => a.ts ≤ b.ts) (l.foldl (dequeAppend 3600) [])
  ∧ (∀ (hist : String → Option (List HistorySample)) (pid : String) (t g : ℚ) (m : ℕ),
      _append_history hist pid t g m pid
        = some (dequeAppend 3600 ((hist pid).getD [])
            { ts := m, temp_c := t, gravity := g })) := by
  have key : l.foldl (dequeAppend 3600) [] = l.drop (l.length - 3600) := by
    simpa using foldl_dequeAppend 3600 (by norm_num) l [] (by simp)
  refine ⟨?_, key, ?_, ?_, ?_⟩
  · rw [key, List.length_drop]
    omega
  · intro hgt
    rw [key, List.length_drop]
    omega
  · rw [key]
    generalize l.length - 3600 = k
    exact hmono.drop k
  · intro hist pid t g m
    simp [_append_history]

theorem history_capacity_witness :
    (([{ ts := 0, temp_c := 0, gravity := 0 }, { ts := 1, temp_c := 0, gravity := 0 }] :
        List HistorySample).foldl (dequeAppend 3600) []).length ≤ 3600 :=
  (history_capacity_and_order _ (by simp [List.chain'_cons])).1

theorem didDiscover_accepted (st : ScannerState) (pid : String) (data : List ℕ)
    (info : DecodedReading) (rssi : ℤ) (now : DateTime) (millis : ℕ)
    (w : Option String → Except (Option String) (Option String))
    (h : parse_tilt_advertisement data = some info) :
    (centralManager_didDiscoverPeripheral_advertisementData_RSSI_
        st pid (some data) rssi now millis w).discovered_devices
      = (fun p => if p = pid
          then some (mkRecord info (if rssi = 127 then none else some rssi) data now)
          else st.discovered_devices p)
  ∧ (centralManager_didDiscoverPeripheral_advertisementData_RSSI_
        st pid (some data) rssi now millis w).history
      = _append_history st.history pid info.temperature_c info.gravity millis := by
  obtain ⟨hlen, -, -, -⟩ := parse_some_elim data info h
  have hempty : data.isEmpty = false := by
    cases data with
    | nil => simp at hlen
    | cons a t => rfl
  constructor <;>
    simp only [centralManager_didDiscoverPeripheral_advertisementData_RSSI_,
      hempty, Bool.false_eq_true, if_false, h]

theorem didDiscover_memory_eq (st1 st2 : ScannerState)
    (hd : st1.discovered_devices = st2.discovered_devices)
    (hh : st1.history = st2.history)
    (pid : String) (md : Option (List ℕ)) (rssi : ℤ) (now : DateTime) (millis : ℕ)
    (w1 w2 : Option String → Except (Option String) (Option String)) :
    (centralManager_didDiscoverPeripheral_advertisementData_RSSI_
        st1 pid md rssi now millis w1).discovered_devices
      = (centralManager_didDiscoverPeripheral_advertisementData_RSSI_
          st2 pid md rssi now millis w2).discovered_devices
  ∧ (centralManager_didDiscoverPeripheral_advertisementData_RSSI_
        st1 pid md rssi now millis w1).history
      = (centralManager_didDiscoverPeripheral_advertisementData_RSSI_
          st2 pid md rssi now millis w2).history := by
  cases md with
  | none => exact ⟨hd, hh⟩
  | some data =>
    simp only [centralManager_didDiscoverPeripheral_advertisementData_RSSI_]
    by_cases he : data.isEmpty
    · simp [he, hd, hh]
    · simp only [he, Bool.false_eq_true, if_false]
      cases hp : parse_tilt_advertisement data with
      | none => exact ⟨hd, hh⟩
      | some info =>
        constructor
        · funext p
          simp [hd]
        · simp only [_append_history, hh]

/-- C6: an accepted reading's upsert stores a record built entirely from
the current advertisement — `mkRecord` takes only the decoded reading,
the normalized signal strength, the raw bytes and the clock, and the
equation holds for every prior state `st`, so a later snapshot shows
only the latest call's values with no field-level merge — and the same
upsert appends exactly one history sample to that device's buffer,
creating the buffer on first sight of the identifier; other device
identifiers are untouched. -/
theorem upsert_replaces_record_and_appends_history (st : ScannerState) (pid : String)
    (data : List ℕ) (info : DecodedReading) (rssi : ℤ) (now : DateTime) (millis : ℕ)
    (w : Option String → Except (Option String) (Option String))
    (h : parse_tilt_advertisement data = some info) :
    (centralManager_didDiscoverPeripheral_advertisementData_RSSI_
        st pid (some data) rssi now millis w).discovered_devices pid
      = some (mkRecord info (if rssi = 127 then none else some rssi) data now)
  ∧ (centralManager_didDiscoverPeripheral_advertisementData_RSSI_
        st pid (some data) rssi now millis w).history pid
      = some (dequeAppend 3600 ((st.history pid).getD [])
          { ts := millis, temp_c := info.temperature_c, gravity := info.gravity })
  ∧ (st.history pid = none →
      (centralManager_didDiscoverPeripheral_advertisementData_RSSI_
          st pid (some data) rssi now millis w).history pid
        = some [{ ts := millis, temp_c := info.temperature_c, gravity := info.gravity }])
  ∧ (∀ p, p ≠ pid →
      (centralManager_didDiscoverPeripheral_advertisementData_RSSI_
          st pid (some data) rssi now millis w).discovered_devices p
        = st.discovered_devices p
    ∧ (centralManager_didDiscoverPeripheral_advertisementData_RSSI_
          st pid (some data) rssi now millis w).history p
        = st.history p) := by
  obtain ⟨hdev, hhist⟩ := didDiscover_accepted st pid data info rssi now millis w h
  refine ⟨?_, ?_, ?_, ?_⟩
  · rw [hdev]
    simp
  · rw [hhist]
    simp [_append_history]
  · intro h0
    rw [hhist]
    simp [_append_history, h0, dequeAppend]
  · intro p hp
    rw [hdev, hhist]
    constructor
    · simp [hp]
    · simp [_append_history, hp]

theorem upsert_replaces_witness :
    (centralManager_didDiscoverPeripheral_advertisementData_RSSI_
        ⟨fun _ => none, fun _ => none, none⟩ "P" (some exampleBytes) (-70)
        ⟨2024, 12, 31, 15, 42, 49⟩ 5 (fun f => .ok f)).discovered_devices "P"
      = some (mkRecord
          { color := "Red", temperature := 70, temperature_c := 190 / 9,
            gravity := 1, battery_weeks := some 90, tx_raw := 90, tx_dbm := 90 }
          (if (-70 : ℤ) = 127 then none else some (-70)) exampleBytes
          ⟨2024, 12, 31, 15, 42, 49⟩) :=
  (upsert_replaces_record_and_appends_history _ "P" exampleBytes _ (-70)
    ⟨2024, 12, 31, 15, 42, 49⟩ 5 (fun f => .ok f) parse_exampleBytes).1

/-- C9: the signal-strength sentinel 127 is normalized to absent before
being stored in the device record; any other delivered value is stored
as-is. -/
theorem rssi_sentinel_normalization (st : ScannerState) (pid : String) (data : List ℕ)
    (info : DecodedReading) (rssi : ℤ) (now : DateTime) (millis : ℕ)
    (w : Option String → Except (Option String) (Option String))
    (h : parse_tilt_advertisement data = some info) :
    ∃ rec, (centralManager_didDiscoverPeripheral_advertisementData_RSSI_
        st pid (some data) rssi now millis w).discovered_devices pid = some rec
      ∧ rec.rssi = (if rssi = 127 then none else some rssi)
      ∧ (rssi = 127 → rec.rssi = none)
      ∧ (rssi ≠ 127 → rec.rssi = some rssi) := by
  obtain ⟨hdev, -⟩ := didDiscover_accepted st pid data info rssi now millis w h
  refine ⟨mkRecord info (if rssi = 127 then none else some rssi) data now, ?_, rfl, ?_, ?_⟩
  · rw [hdev]
    simp
  · intro h127
    simp [mkRecord, h127]
  · intro h127
    simp [mkRecord, h127]

theorem rssi_sentinel_witness :
    ∃ rec, (centralManager_didDiscoverPeripheral_advertisementData_RSSI_
        ⟨fun _ => none, fun _ => none, none⟩ "P" (some exampleBytes) 127
        ⟨2024, 12, 31, 15, 42, 49⟩ 5 (fun f => .ok f)).discovered_devices "P" = some rec
      ∧ rec.rssi = none := by
  obtain ⟨rec, h1, -, h3, -⟩ := rssi_sentinel_normalization
    ⟨fun _ => none, fun _ => none, none⟩ "P" exampleBytes _ 127
    ⟨2024, 12, 31, 15, 42, 49⟩ 5 (fun f => .ok f) parse_exampleBytes
  exact ⟨rec, h1, h3 rfl⟩

/-- C8: a durable-log write failure is invisible to the in-memory
state: for any two outcomes of the CSV write (one may fail with any
error, the other succeed), the registry and the history buffers after
the callback are identical — the upsert performed before the write is
never rolled back — and a subsequent advertisement is processed to the
same registry contents as well, so ingestion is not halted. -/
theorem log_failure_is_isolated (st : ScannerState) (pid : String) (md : Option (List ℕ))
    (rssi : ℤ) (now : DateTime) (millis : ℕ)
    (w1 w2 : Option String → Except (Option String) (Option String)) :
    (centralManager_didDiscoverPeripheral_advertisementData_RSSI_
        st pid md rssi now millis w1).discovered_devices
      = (centralManager_didDiscoverPeripheral_advertisementData_RSSI_
          st pid md rssi now millis w2).discovered_devices
  ∧ (centralManager_didDiscoverPeripheral_advertisementData_RSSI_
        st pid md rssi now millis w1).history
      = (centralManager_didDiscoverPeripheral_advertisementData_RSSI_
          st pid md rssi now millis w2).history
  ∧ ∀ (pid2 : String) (md2 : Option (List ℕ)) (rssi2 : ℤ) (now2 : DateTime) (millis2 : ℕ)
      (w3 w4 : Option String → Except (Option String) (Option String)),
      (centralManager_didDiscoverPeripheral_advertisementData_RSSI_
          (centralManager_didDiscoverPeripheral_advertisementData_RSSI_
            st pid md rssi now millis w1) pid2 md2 rssi2 now2 millis2 w3).discovered_devices
        = (centralManager_didDiscoverPeripheral_advertisementData_RSSI_
            (centralManager_didDiscoverPeripheral_advertisementData_RSSI_
              st pid md rssi now millis w2) pid2 md2 rssi2 now2 millis2 w4).discovered_devices := by
  obtain ⟨hd, hh⟩ := didDiscover_memory_eq st st rfl rfl pid md rssi now millis w1 w2
  exact ⟨hd, hh, fun pid2 md2 rssi2 now2 millis2 w3 w4 =>
    (didDiscover_memory_eq _ _ hd hh pid2 md2 rssi2 now2 millis2 w3 w4).1⟩

theorem toList_getLast?_append (x y : String) (hy : y.toList ≠ []) :
    (x ++ y).toList.getLast? = y.toList.getLast? := by
  have hl : (x ++ y).toList = x.toList ++ y.toList := by simp
  rw [hl]
  exact List.getLast?_append_of_ne_nil _ hy

/-- C7: the log writer creates the file holding exactly the header line
`Timepoint,SG,Temp (°C)` when it is absent; before appending to an
existing file it reads the last byte and emits a lone newline first
when that byte is not a newline, so appended rows never merge into the
prior line (indeed every produced file ends in a newline); each
appended line reads `MM/DD/YYYY HH:MM:SS,<SG to 3 decimals>,<°C to 1
decimal>`, one line per accepted reading. -/
theorem log_writer_self_healing_format (c : String) (dt : DateTime) (g t : ℚ) :
    ensure_csv_header none = "Timepoint,SG,Temp (°C)\n"
  ∧ append_to_mead_csv none dt g t = CSV_HEADER ++ csvLine dt g t
  ∧ (c.toList.getLast? = some '\n' →
      append_to_mead_csv (some c) dt g t = c ++ csvLine dt g t)
  ∧ (∀ ch, c.toList.getLast? = some ch → ch ≠ '\n' →
      append_to_mead_csv (some c) dt g t = c ++ "\n" ++ csvLine dt g t)
  ∧ csvLine dt g t
      = strftime_mdY_HMS dt ++ "," ++ fmtFixed 3 g ++ "," ++ fmtFixed 1 t ++ "\n"
  ∧ (∀ f, (append_to_mead_csv f dt g t).toList.getLast? = some '\n')
  ∧ fmtFixed 3 1 = "1.000" ∧ fmtFixed 1 (190 / 9) = "21.1"
  ∧ strftime_mdY_HMS ⟨2024, 12, 31, 15, 42, 49⟩ = "12/31/2024 15:42:49" := by
  refine ⟨rfl, ?_, ?_, ?_, rfl, ?_, ?_, ?_, ?_⟩
  · simp [append_to_mead_csv, ensure_csv_header, CSV_HEADER]
  · intro h
    have h' : c.data.getLast? = some '\n' := h
    simp [append_to_mead_csv, ensure_csv_header, h']
  · intro ch h hch
    have h' : c.data.getLast? = some ch := h
    simp [append_to_mead_csv, ensure_csv_header, h', hch]
  · intro f
    have hstep : append_to_mead_csv f dt g t
        = (ensure_csv_header f ++
            (if (match (ensure_csv_header f).toList.getLast? with
                 | none => false
                 | some ch => ch != '\n') then "\n" else "")) ++ csvLine dt g t := rfl
    rw [hstep]
    rw [toList_getLast?_append _ _ (by simp [csvLine])]
    rw [show csvLine dt g t
        = (strftime_mdY_HMS dt ++ "," ++ fmtFixed 3 g ++ "," ++ fmtFixed 1 t) ++ "\n" from rfl]
    rw [toList_getLast?_append _ _ (by decide)]
    rfl
  · norm_num [fmtFixed, roundHalfEven, padLeftZeros]
    decide
  · norm_num [fmtFixed, roundHalfEven, padLeftZeros]
    decide
  · decide

theorem log_writer_witness :
    append_to_mead_csv (some "abc") ⟨2024, 12, 31, 15, 42, 49⟩ 1 (190 / 9)
      = "abc" ++ "\n" ++ csvLine ⟨2024, 12, 31, 15, 42, 49⟩ 1 (190 / 9) :=
  (log_writer_self_healing_format "abc" ⟨2024, 12, 31, 15, 42, 49⟩ 1
    (190 / 9)).2.2.2.1 'c' rfl (by decide)
